import Mathlib

/-
Shallow embedding of the inventory model and the two-tier balancing engine of
`nannies/vmfs_balance.py` (openstack-nannies).  Python ints are embedded as
`Int`, Python floats produced by `/` as `ℚ` (exact arithmetic), fallible
operations (ZeroDivisionError, IndexError, AttributeError) as `Except PyErr`.
Python's `list.sort`/`sorted` are stable; they are embedded by a stable
insertion sort.  Logging calls are pure output and are dropped, except where
they evaluate a fallible expression (the per-aggregate usage log line divides
by the accumulated matched capacity).
-/

namespace VB

/-- Python exception kinds that the modelled code can raise. -/
inductive PyErr
  | zeroDivisionError
  | indexError
  | attributeError
deriving DecidableEq, Repr

/-- Stable insert for the stable sort: `x` goes in front of the first element
`y` with `le x y`; on ties (`le` both ways) an earlier-inserted element keeps
its place behind later ones, which combined with `foldr` yields stability. -/
def insertStable (le : α → α → Bool) (x : α) : List α → List α
  | [] => [x]
  | y :: ys => if le x y then x :: y :: ys else y :: insertStable le x ys

/-- Stable sort, modelling Python's stable `list.sort` / `sorted`. -/
def sortStable (le : α → α → Bool) (l : List α) : List α :=
  l.foldr (insertStable le) []

/-- Character-list segment test: `p` is an initial segment of `l`. -/
def startsWithSeg : List Char → List Char → Bool
  | [], _ => true
  | _ :: _, [] => false
  | a :: p, b :: l => a == b && startsWithSeg p l

/-- Character-list containment: `p` occurs contiguously somewhere in `l`. -/
def hasSeg (p : List Char) : List Char → Bool
  | [] => startsWithSeg p []
  | l@(_ :: t) => startsWithSeg p l || hasSeg p t

/-- Pattern of the datastore-name filter regex `^(?:vmfs_vc.*_ssd_).*`
from `DataStores.vmfs_ds`. -/
def vmfsVcPat : List Char := "vmfs_vc".data

/-- The `_ssd_` segment of the naming convention. -/
def ssdPat : List Char := "_ssd_".data

/-- The `_hdd_` segment of the naming convention. -/
def hddPat : List Char := "_hdd_".data

/-- The regex `^(?:vmfs_vc.*_ssd_).*` of `DataStores.vmfs_ds`: the name starts
with `vmfs_vc` and contains `_ssd_` afterwards (the `_ssd_` may start at any
position at or after the end of the fixed prefix `vmfs_vc`, which is 7
characters long). -/
def matchesVmfsVcSsd (s : String) : Bool :=
  startsWithSeg vmfsVcPat s.data && hasSeg ssdPat (s.data.drop 7)

/-- The medium-class regex of `vmfs_aggr_balancing`: `^.*_hdd_.*$` when the
`--hdd` switch is set, `^.*_ssd_.*$` otherwise. -/
def lunMediumMatch (hdd : Bool) (s : String) : Bool :=
  if hdd then hasSeg hddPat s.data else hasSeg ssdPat s.data

/-- A device of a VM's hardware descriptor: a virtual disk (with
`capacityInBytes`), a virtual ethernet card, or anything else. -/
inductive Device
  | disk (capacityInBytes : Int)
  | ethernetCard
  | other
deriving DecidableEq, Repr

/-- One vCenter VM (class `VM`), restricted to the fields the balancing engine
reads: name, the opaque managed-object handle (modelled as a `Nat` id), and
the `config.hardware`/`runtime` attributes that `is_shadow_vm` inspects. -/
structure VM where
  name : String
  handle : Nat
  memoryMB : Int
  numCPU : Int
  powerState : String
  devices : List Device
deriving DecidableEq, Repr

/-- `VM.get_disksizes`: capacities of all attached virtual disks, in bytes. -/
def VM.get_disksizes (vm : VM) : List Int :=
  vm.devices.filterMap (fun d => match d with
    | .disk c => some c
    | _ => none)

/-- `VM.get_total_disksize`: sum of the attached-disk sizes, in bytes. -/
def VM.get_total_disksize (vm : VM) : Int :=
  vm.get_disksizes.sum

/-- `VM.is_shadow_vm`: 128 MB memory, 1 CPU, powered off, no ethernet card,
and exactly one virtual disk (zero disks or more than one disk are warned
about and excluded). -/
def VM.is_shadow_vm (vm : VM) : Bool :=
  if vm.memoryMB == 128 && vm.numCPU == 1 && vm.powerState == "poweredOff" &&
      !(vm.devices.any (fun d => d matches .ethernetCard)) then
    let number_of_disks := (vm.devices.filter (fun d => d matches .disk _)).length
    if number_of_disks == 0 then false
    else if number_of_disks > 1 then false
    else true
  else false

/-- `VMs.get_shadow_vms`: the shadow vms among `vm_info` whose handle belongs
to the given handle list, in the order of `vm_info`. -/
def get_shadow_vms (vm_info : List VM) (vm_handles : List Nat) : List VM :=
  vm_info.filter (fun vm => vm_handles.contains vm.handle && vm.is_shadow_vm)

/-- `sort_vms_by_total_disksize`: vms sorted by total disk size, descending,
stable (Python `sorted(..., reverse=True)`). -/
def sort_vms_by_total_disksize (vms : List VM) : List VM :=
  sortStable (fun a b => decide (b.get_total_disksize ≤ a.get_total_disksize)) vms

/-- One vCenter datastore (class `DS`): name, free space and capacity in
bytes, the used bytes and usage percentage derived at construction, and the
member-vm handle list.  `used` is set only by the constructor; the Move
Simulator recomputes `usage` but not `used`. -/
structure DS where
  name : String
  freespace : Int
  capacity : Int
  used : Int
  usage : ℚ
  vm_handles : List Nat
deriving DecidableEq, Repr

/-- `DS.__init__` from a property snapshot: `used = capacity - freespace`,
`usage = (1 - freespace/capacity) * 100`. -/
def DS.ofElement (name : String) (freespace capacity : Int) (vm_handles : List Nat) : DS :=
  { name := name
    freespace := freespace
    capacity := capacity
    used := capacity - freespace
    usage := (1 - (freespace : ℚ) / (capacity : ℚ)) * 100
    vm_handles := vm_handles }

/-- `DS.is_below_usage`. -/
def DS.is_below_usage (ds : DS) (usage : ℚ) : Bool :=
  decide (ds.usage < usage)

/-- `DS.is_above_usage`. -/
def DS.is_above_usage (ds : DS) (usage : ℚ) : Bool :=
  decide (ds.usage > usage)

/-- `DS.is_below_freespace` (`freespace` argument is in GiB). -/
def DS.is_below_freespace (ds : DS) (freespace : Int) : Bool :=
  decide (ds.freespace < freespace * 1024 ^ 3)

/-- `DS.add_shadow_vm`: subtract the vm size from the free space, append the
vm handle, recompute `usage` from `freespace`/`capacity`. -/
def DS.add_shadow_vm (ds : DS) (vm : VM) : DS :=
  let fs := ds.freespace - vm.get_total_disksize
  { ds with
    freespace := fs
    vm_handles := ds.vm_handles ++ [vm.handle]
    usage := (1 - (fs : ℚ) / (ds.capacity : ℚ)) * 100 }

/-- `DS.remove_shadow_vm`: remove the vm handle (first occurrence), add the
vm size back to the free space, recompute `usage` from
`freespace`/`capacity`. -/
def DS.remove_shadow_vm (ds : DS) (vm : VM) : DS :=
  let fs := ds.freespace + vm.get_total_disksize
  { ds with
    vm_handles := ds.vm_handles.erase vm.handle
    freespace := fs
    usage := (1 - (fs : ℚ) / (ds.capacity : ℚ)) * 100 }

/-- The usage-recomputation invariant of a `DS`:
`usage = (1 - freespace/capacity) * 100`. -/
def usage_inv (ds : DS) : Prop :=
  ds.usage = (1 - (ds.freespace : ℚ) / (ds.capacity : ℚ)) * 100

instance : DecidablePred usage_inv := fun ds => by
  unfold usage_inv; infer_instance

/-- A datastore is fresh (just constructed by `DS.ofElement`, not yet touched
by the Move Simulator): `used` agrees with `capacity - freespace`, `usage`
satisfies the recomputation invariant, and the capacity is nonzero
(zero-capacity datastores are excluded at construction). -/
def DS.fresh (ds : DS) : Prop :=
  ds.used = ds.capacity - ds.freespace ∧ usage_inv ds ∧ ds.capacity ≠ 0

/-- `DataStores.get_by_name`: the first datastore with the given name. -/
def get_by_name (elements : List DS) (n : String) : Option DS :=
  elements.find? (fun ds => ds.name == n)

/-- `DataStores.vmfs_ds`: keep only datastores whose name matches the
`^(?:vmfs_vc.*_ssd_).*` regex and, when the deny-list is nonempty, whose name
is not deny-listed (`not (ds_denylist and ds.name in ds_denylist)`). -/
def vmfs_ds_filter (elements : List DS) (ds_denylist : List String) : List DS :=
  elements.filter (fun ds =>
    matchesVmfsVcSsd ds.name && !(!ds_denylist.isEmpty && ds_denylist.contains ds.name))

/-- The weight map (Python dict from datastore name to weight); assignments
prepend, lookups take the most recent binding, like dict assignment. -/
def Wmap := List (String × ℚ)

/-- Dict lookup with default, modelling `ds_weight.get(name, 1)`. -/
def wget (w : Wmap) (n : String) (dflt : ℚ) : ℚ :=
  match w.find? (fun p => p.1 == n) with
  | some p => p.2
  | none => dflt

/-- Dict lookup without default (`name in ds_weight` plus access). -/
def wfind (w : Wmap) (n : String) : Option ℚ :=
  (w.find? (fun p => p.1 == n)).map (fun p => p.2)

/-- `DataStores.sort_by_usage`: stable sort by `usage * weight`, descending
(weight defaults to 1 for names absent from the weight map). -/
def sort_by_usage (elements : List DS) (ds_weight : Wmap) : List DS :=
  sortStable (fun a b =>
    decide (b.usage * wget ds_weight b.name 1 ≤ a.usage * wget ds_weight a.name 1)) elements

/-- `DataStores.get_overall_capacity` (bytes). -/
def get_overall_capacity (elements : List DS) : Int :=
  (elements.map (fun ds => ds.capacity)).sum

/-- `DataStores.get_overall_freespace` (bytes). -/
def get_overall_freespace (elements : List DS) : Int :=
  (elements.map (fun ds => ds.freespace)).sum

/-- `DataStores.get_overall_average_usage` (percent); the caller-side
zero-capacity check is made where the pipeline calls this. -/
def get_overall_average_usage (elements : List DS) : ℚ :=
  (1 - (get_overall_freespace elements : ℚ) / (get_overall_capacity elements : ℚ)) * 100

/-- One netapp LUN (class `NALun`), restricted to the fields the balancing
engine reads: containing flexvol, extracted name (the join key), volume-type
tag (`"vmfs"` or `"vvol"`), and used bytes. -/
structure NLun where
  fvol : String
  name : String
  type : String
  used : Int
deriving DecidableEq, Repr

/-- One netapp aggregate (class `NAAggr`) with its derived LUN children:
name, host, controller-reported usage percent, capacity in bytes, and the
LUNs reachable through its flexvols. -/
structure NAggr where
  name : String
  host : String
  usage : ℚ
  capacity : Int
  luns : List NLun
deriving DecidableEq, Repr

/-- One netapp controller (class `NA`): host plus its aggregate elements. -/
structure NAm where
  host : String
  na_aggr_elements : List NAggr
deriving DecidableEq, Repr

/-- All aggregates of all netapps, in the traversal order of the nested
`for na in na_info.elements: for aggr in na.na_aggr_elements:` loops. -/
def allAggrs (na_info : List NAm) : List NAggr :=
  na_info.flatMap (fun na => na.na_aggr_elements)

/-- The decision record emitted per move by `move_shadow_vm_from_ds_to_ds`
(the log lines: vm, source and target ds, before/after usage, size). -/
structure MoveRecord where
  vm_name : String
  source : String
  target : String
  source_usage_before : ℚ
  source_usage_after : ℚ
  target_usage_before : ℚ
  target_usage_after : ℚ
  size : Int
deriving DecidableEq, Repr

/-- `move_shadow_vm_from_ds_to_ds`: remove the vm from the source ds, add it
to the target ds, and emit the decision record.  Returns
(source after, target after, record). -/
def move_shadow_vm_from_ds_to_ds (ds1 ds2 : DS) (vm : VM) : DS × DS × MoveRecord :=
  let source_usage_before := ds1.usage
  let ds1' := ds1.remove_shadow_vm vm
  let source_usage_after := ds1'.usage
  let target_usage_before := ds2.usage
  let ds2' := ds2.add_shadow_vm vm
  let target_usage_after := ds2'.usage
  (ds1', ds2',
    { vm_name := vm.name
      source := ds1.name
      target := ds2.name
      source_usage_before := source_usage_before
      source_usage_after := source_usage_after
      target_usage_before := target_usage_before
      target_usage_after := target_usage_after
      size := vm.get_total_disksize })

/-- `sanity_checks` (lines 699-719; its only call site in `vmfs_ds_balancing`
is commented out in the source). -/
def sanity_checks (least_used_ds most_used_ds : DS) (min_usage max_usage : ℚ)
    (min_freespace min_max_difference : Int) : Bool :=
  if most_used_ds.is_below_usage max_usage then false
  else if least_used_ds.is_above_usage min_usage then false
  else if least_used_ds.is_below_freespace min_freespace then false
  else if decide (most_used_ds.usage - least_used_ds.usage < (min_max_difference : ℚ)) then false
  else true

/-- One LUN step of `get_aggr_and_ds_stats`: if a datastore of the LUN's name
exists, accumulate its capacity and used bytes and assign
`ds_weight[lun.name] = aggr.usage / (ds.used / ds.capacity * 100)`; otherwise
the LUN is skipped.  `ds.used / ds.capacity` raises ZeroDivisionError when
`ds.capacity == 0`, and the outer division raises when the datastore's used
fraction is zero.  State: (ds_total_capacity, ds_total_used, ds_weight). -/
def statsLun (ds_info : List DS) (aggr_usage : ℚ) (st : Int × Int × Wmap)
    (lun : NLun) : Except PyErr (Int × Int × Wmap) :=
  match get_by_name ds_info lun.name with
  | none => .ok st
  | some d =>
      if d.capacity = 0 then .error .zeroDivisionError
      else if (d.used : ℚ) / (d.capacity : ℚ) * 100 = 0 then .error .zeroDivisionError
      else .ok (st.1 + d.capacity, st.2.1 + d.used,
        (lun.name, aggr_usage / ((d.used : ℚ) / (d.capacity : ℚ) * 100)) :: st.2.2)

/-- The LUN loop of `get_aggr_and_ds_stats` over one aggregate. -/
def statsLuns (ds_info : List DS) (aggr_usage : ℚ) :
    List NLun → (Int × Int × Wmap) → Except PyErr (Int × Int × Wmap)
  | [], st => .ok st
  | lun :: luns, st => do
      statsLuns ds_info aggr_usage luns (← statsLun ds_info aggr_usage st lun)

/-- One aggregate of `get_aggr_and_ds_stats`: run the LUN loop starting from
fresh per-aggregate totals, then evaluate the
`ds_total_used/ds_total_capacity*100` log expression, which raises
ZeroDivisionError when no LUN of the aggregate matched a datastore. -/
def statsAggr (ds_info : List DS) (w : Wmap) (aggr : NAggr) : Except PyErr Wmap := do
  let st ← statsLuns ds_info aggr.usage aggr.luns (0, 0, w)
  if st.1 = 0 then .error .zeroDivisionError
  else .ok st.2.2

/-- The aggregate loop of `get_aggr_and_ds_stats`. -/
def statsAggrList (ds_info : List DS) : List NAggr → Wmap → Except PyErr Wmap
  | [], w => .ok w
  | aggr :: aggrs, w => do
      statsAggrList ds_info aggrs (← statsAggr ds_info w aggr)

/-- `get_aggr_and_ds_stats`: walk every aggregate of every netapp (the
per-netapp level only logs the host, so the nested loops flatten to the
aggregate traversal) and build the per-datastore weight map. -/
def get_aggr_and_ds_stats (na_info : List NAm) (ds_info : List DS) : Except PyErr Wmap :=
  statsAggrList ds_info (allAggrs na_info) []

/-- The usages of those aggregates, in traversal order, that carry at least
one LUN with the given name: each such aggregate overwrites the weight entry
for that name once per carrying LUN, always with the same value within one
aggregate. -/
def aggrUsagesForName (n : String) (aggrs : List NAggr) : List ℚ :=
  aggrs.filterMap (fun a =>
    if (a.luns.filter (fun l => l.name == n)).isEmpty then none else some a.usage)

/-- `get_max_usage_aggr`: capacity totals and capacity-weighted used total
over all aggregates, stable ascending sort by usage, most-used aggregate is
the last element (IndexError when there is no aggregate at all), weighted
average usage is `total_used / total_capacity * 100` (ZeroDivisionError when
the total capacity is zero). -/
def get_max_usage_aggr (na_info : List NAm) : Except PyErr (NAggr × ℚ) :=
  let aggrs := allAggrs na_info
  let total_capacity : Int := (aggrs.map (fun a => a.capacity)).sum
  let total_used : ℚ := (aggrs.map (fun a => a.usage / 100 * (a.capacity : ℚ))).sum
  let all_aggr_list := sortStable (fun a b => decide (a.usage ≤ b.usage)) aggrs
  match all_aggr_list.getLast? with
  | none => .error .indexError
  | some max_usage_aggr =>
      if total_capacity = 0 then .error .zeroDivisionError
      else .ok (max_usage_aggr, total_used / (total_capacity : ℚ) * 100)

/-- The command-line configuration consumed by the balancing passes (the
fields that only drive logging - `dry_run`, `interval`, `print_max`,
credentials - are omitted).  Sizes are in GiB, usages in percent, as parsed
by `argparse` with `type=int`; a missing `--ds-denylist` is the empty list. -/
structure Args where
  min_usage : Int
  max_usage : Int
  min_freespace : Int
  min_max_difference : Int
  autopilot : Bool
  autopilot_range : Int
  max_move_vms : Int
  ds_denylist : List String
  aggr_volume_min_size : Int
  aggr_volume_max_size : Int
  flexvol_volume_min_size : Int
  flexvol_volume_max_size : Int
  hdd : Bool
deriving DecidableEq, Repr

/-- The deny-list extension step shared by both balancing passes
(`extended_ds_denylist = args.ds_denylist` when that is truthy, else a fresh
empty list; then `extended_ds_denylist.extend(lun names)`).  Because the
nonempty branch aliases the configuration list, `extend` also mutates
`args.ds_denylist`; the returned pair is
(extended deny-list, `args.ds_denylist` after the step). -/
def extend_denylist (ds_denylist lun_names : List String) : List String × List String :=
  if ds_denylist.isEmpty then (lun_names, ds_denylist)
  else (ds_denylist ++ lun_names, ds_denylist ++ lun_names)

/-- The damped maximum movable unit size of the datastore-level balancer:
`min((least_used_ds.freespace - most_used_ds.freespace) / (2 * 1024**3),
args.flexvol_volume_max_size)`, in GiB. -/
def vm_maxdisksize (least_used_ds most_used_ds : DS) (flexvol_volume_max_size : Int) : ℚ :=
  min (((least_used_ds.freespace - most_used_ds.freespace : Int) : ℚ) / (2 * 1024 ^ 3))
    (flexvol_volume_max_size : ℚ)

/-- Descending stable order on id-tagged datastores by `usage * weight`,
for `sort_by_usage(ds_weight)` inside the balancing loops (the id tags model
Python object identity through the in-place sorts). -/
def tagWeightedDesc (ds_weight : Wmap) (a b : Nat × DS) : Bool :=
  decide (b.2.usage * wget ds_weight b.2.name 1 ≤ a.2.usage * wget ds_weight a.2.name 1)

/-- Descending stable order on id-tagged datastores by raw `usage`, for the
plain `sort_by_usage()` re-sort at the end of each loop iteration. -/
def tagRawDesc (a b : Nat × DS) : Bool :=
  decide (b.2.usage ≤ a.2.usage)

/-- The balancing loop of `vmfs_aggr_balancing` (lines 890-943).  The Python
loop breaks when `moves_done > args.max_move_vms`; `budget` is
`(args.max_move_vms + 1 - moves_done).toNat`, which is zero exactly when that
break condition holds, so the structural recursion is the exact loop.
Remaining stops: cumulative moved size exceeding `size_to_free`, the fixed
source usage having fallen `4 * autopilot_range` below the datastore average,
or no eligible shadow vm on the source.  The fixed source datastore and the
target pool (an id-tagged list, re-sorted and mutated in place) are separate
objects because the source's name is on the extended deny-list.  Returns the
emitted move records and the error, if one was raised. -/
def aggrLoop (vm_info : List VM) (args : Args) (ds_weight : Wmap)
    (size_to_free ds_overall_average_usage : ℚ) :
    Nat → DS → List (Nat × DS) → Int → List MoveRecord × Option PyErr
  | 0, _, _, _ => ([], none)
  | budget + 1, src, targets, moved_size =>
    if (moved_size : ℚ) > size_to_free then ([], none)
    else if src.usage < ds_overall_average_usage - 4 * (args.autopilot_range : ℚ) then
      ([], none)
    else
      let tw := sortStable (tagWeightedDesc ds_weight) targets
      match tw.getLast? with
      | none => ([], some .indexError)
      | some (tid, least_used_ds) =>
        let least_used_ds_free_space : Int :=
          least_used_ds.freespace - args.min_freespace * 1024 ^ 3
        let cands := (get_shadow_vms vm_info src.vm_handles).filter (fun vm =>
          decide ((args.aggr_volume_min_size : ℚ) ≤ (vm.get_total_disksize : ℚ) / 1024 ^ 3 ∧
            (vm.get_total_disksize : ℚ) / 1024 ^ 3 ≤
              min ((least_used_ds_free_space : ℚ) / 1024 ^ 3) (args.aggr_volume_max_size : ℚ)))
        match (sort_vms_by_total_disksize cands).head? with
        | none => ([], none)
        | some vm =>
          let r := move_shadow_vm_from_ds_to_ds src least_used_ds vm
          let targets' := tw.map (fun p => if p.1 = tid then (p.1, r.2.1) else p)
          let targets2 := sortStable tagRawDesc targets'
          let rest := aggrLoop vm_info args ds_weight size_to_free ds_overall_average_usage
            budget r.1 targets2 (moved_size + vm.get_total_disksize)
          (r.2.2 :: rest.1, rest.2)

/-- The outcome of one `vmfs_aggr_balancing` pass: the emitted move records,
the value of `args.ds_denylist` after the pass (it is mutated in place when
nonempty), the extended deny-list that was derived (empty when the pass
returned before deriving it), and the Python exception if one was raised. -/
structure AggrBalResult where
  moves : List MoveRecord
  ds_denylist_after : List String
  extended_ds_denylist : List String
  err : Option PyErr
deriving DecidableEq, Repr

/-- `vmfs_aggr_balancing` (lines 804-943): weight map, most-used aggregate
and weighted average, autopilot-range gate, source-datastore search among the
most-used aggregate's vmfs LUNs of the configured medium class, restriction
of the target pool to vmfs datastores off the extended deny-list, then the
balancing loop. -/
def vmfs_aggr_balancing (na_info : List NAm) (ds_elements : List DS)
    (vm_info : List VM) (args : Args) : AggrBalResult :=
  match get_aggr_and_ds_stats na_info ds_elements with
  | .error e => ⟨[], args.ds_denylist, [], some e⟩
  | .ok ds_weight =>
  match get_max_usage_aggr na_info with
  | .error e => ⟨[], args.ds_denylist, [], some e⟩
  | .ok (max_usage_aggr, avg_aggr_usage) =>
  let size_to_free_on_max_used_aggr : ℚ :=
    (max_usage_aggr.usage - avg_aggr_usage) * (max_usage_aggr.capacity : ℚ) / 100
  if max_usage_aggr.usage < avg_aggr_usage + (args.autopilot_range : ℚ) then
    ⟨[], args.ds_denylist, [], none⟩
  else
  let src_luns := max_usage_aggr.luns.filter (fun lun =>
    lun.type == "vmfs" && lunMediumMatch args.hdd lun.name)
  let src_opts := src_luns.map (fun lun => get_by_name ds_elements lun.name)
  if src_opts.any (fun o => o.isNone) then
    ⟨[], args.ds_denylist, [], some .attributeError⟩
  else
  let balancing_source_ds :=
    sortStable (fun a b => decide (a.usage ≤ b.usage)) (src_opts.reduceOption)
  match balancing_source_ds.getLast? with
  | none => ⟨[], args.ds_denylist, [], some .indexError⟩
  | some most_used_ds_on_most_used_aggr =>
  let ds1 := sortStable (fun a b => decide (b.usage ≤ a.usage))
    (vmfs_ds_filter ds_elements [])
  if ds1.isEmpty then ⟨[], args.ds_denylist, [], none⟩
  else
  if get_overall_capacity ds1 = 0 then
    ⟨[], args.ds_denylist, [], some .zeroDivisionError⟩
  else
  let ds_overall_average_usage := get_overall_average_usage ds1
  let lun_names := max_usage_aggr.luns.map (fun lun => lun.name)
  let dl := extend_denylist args.ds_denylist lun_names
  let targets0 := (vmfs_ds_filter ds1 dl.1).enum
  let res := aggrLoop vm_info args ds_weight size_to_free_on_max_used_aggr
    ds_overall_average_usage (args.max_move_vms + 1).toNat
    most_used_ds_on_most_used_aggr targets0 0
  ⟨res.1, dl.2, dl.1, res.2⟩

/-- The balancing loop of `vmfs_ds_balancing` (lines 1007-1045).  As in
`aggrLoop`, `budget = (args.max_move_vms + 1 - moves_done).toNat` replaces the
`moves_done > args.max_move_vms` break.  The most-used datastore is the head
of the current (raw-usage-ordered) list, the least-used the last element
after the weighted re-sort of the same in-place list; when the list has a
single element both are the same Python object and the two Move Simulator
mutations chain on it.  The corridor `min_usage`/`max_usage` is NOT consulted:
the `sanity_checks` call is commented out in the source. -/
def dsLoop (vm_info : List VM) (flexvol_volume_min_size flexvol_volume_max_size : Int)
    (ds_weight : Wmap) :
    Nat → List (Nat × DS) → List MoveRecord × Option PyErr
  | 0, _ => ([], none)
  | budget + 1, targets =>
    match targets.head? with
    | none => ([], some .indexError)
    | some (mid, most_used_ds) =>
      let tw := sortStable (tagWeightedDesc ds_weight) targets
      match tw.getLast? with
      | none => ([], some .indexError)
      | some (lid, least_used_ds) =>
        let cands := (get_shadow_vms vm_info most_used_ds.vm_handles).filter (fun vm =>
          decide ((flexvol_volume_min_size : ℚ) ≤ (vm.get_total_disksize : ℚ) / 1024 ^ 3 ∧
            (vm.get_total_disksize : ℚ) / 1024 ^ 3 ≤
              vm_maxdisksize least_used_ds most_used_ds flexvol_volume_max_size))
        match (sort_vms_by_total_disksize cands).head? with
        | none => ([], none)
        | some vm =>
          if mid = lid then
            -- most- and least-used are the same object: the remove and the
            -- add mutate it in sequence, and the record reads it in between.
            let m1 := most_used_ds.remove_shadow_vm vm
            let m2 := m1.add_shadow_vm vm
            let mrec : MoveRecord :=
              { vm_name := vm.name
                source := most_used_ds.name
                target := m1.name
                source_usage_before := most_used_ds.usage
                source_usage_after := m1.usage
                target_usage_before := m1.usage
                target_usage_after := m2.usage
                size := vm.get_total_disksize }
            let targets2 := sortStable tagRawDesc
              (tw.map (fun p => if p.1 = mid then (p.1, m2) else p))
            let rest := dsLoop vm_info flexvol_volume_min_size flexvol_volume_max_size
              ds_weight budget targets2
            (mrec :: rest.1, rest.2)
          else
            let r := move_shadow_vm_from_ds_to_ds most_used_ds least_used_ds vm
            let targets2 := sortStable tagRawDesc
              (tw.map (fun p =>
                if p.1 = mid then (p.1, r.1)
                else if p.1 = lid then (p.1, r.2.1)
                else p))
            let rest := dsLoop vm_info flexvol_volume_min_size flexvol_volume_max_size
              ds_weight budget targets2
            (r.2.2 :: rest.1, rest.2)

/-- The outcome of one `vmfs_ds_balancing` pass: move records, the value of
`args.ds_denylist` after the pass, the derived extended deny-list, the list
of datastores the loop balances over (vmfs datastores off the extended
deny-list), the corridor bounds that were computed (fixed configuration or
autopilot), and the Python exception, if one was raised. -/
structure DsBalResult where
  moves : List MoveRecord
  ds_denylist_after : List String
  extended_ds_denylist : List String
  eligible_ds : List DS
  min_usage : ℚ
  max_usage : ℚ
  err : Option PyErr
deriving DecidableEq, Repr

/-- `vmfs_ds_balancing` (lines 946-1045): weight map, most-used aggregate
(only its LUN names are used, for the deny-list), restriction to vmfs
datastores, overall average usage, deny-list extension, corridor computation
(fixed or autopilot), then the balancing loop. -/
def vmfs_ds_balancing (na_info : List NAm) (ds_elements : List DS)
    (vm_info : List VM) (args : Args) : DsBalResult :=
  match get_aggr_and_ds_stats na_info ds_elements with
  | .error e => ⟨[], args.ds_denylist, [], [], 0, 0, some e⟩
  | .ok ds_weight =>
  match get_max_usage_aggr na_info with
  | .error e => ⟨[], args.ds_denylist, [], [], 0, 0, some e⟩
  | .ok (max_usage_aggr, _avg_aggr_usage) =>
  let ds1 := sortStable (fun a b => decide (b.usage ≤ a.usage))
    (vmfs_ds_filter ds_elements [])
  if ds1.isEmpty then ⟨[], args.ds_denylist, [], [], 0, 0, none⟩
  else
  if get_overall_capacity ds1 = 0 then
    ⟨[], args.ds_denylist, [], [], 0, 0, some .zeroDivisionError⟩
  else
  let ds_overall_average_usage := get_overall_average_usage ds1
  let lun_names := max_usage_aggr.luns.map (fun lun => lun.name)
  let dl := extend_denylist args.ds_denylist lun_names
  let eligible := vmfs_ds_filter ds1 dl.1
  let min_usage : ℚ :=
    if args.autopilot then ds_overall_average_usage - (args.autopilot_range : ℚ)
    else (args.min_usage : ℚ)
  let max_usage : ℚ :=
    if args.autopilot then ds_overall_average_usage + (args.autopilot_range : ℚ)
    else (args.max_usage : ℚ)
  let res := dsLoop vm_info args.flexvol_volume_min_size args.flexvol_volume_max_size
    ds_weight (args.max_move_vms + 1).toNat eligible.enum
  ⟨res.1, dl.2, dl.1, eligible, min_usage, max_usage, res.2⟩

/-! Concrete instances used to evaluate the model (counterexamples and
witnesses for the theorems below). -/

/-- A baseline configuration: fixed corridor 40..60, no deny-list, size
bounds 0..2500 GiB for both move kinds, ssd medium, cap of 5 moves. -/
def exArgs : Args :=
  { min_usage := 40
    max_usage := 60
    min_freespace := 0
    min_max_difference := 2
    autopilot := false
    autopilot_range := 5
    max_move_vms := 5
    ds_denylist := []
    aggr_volume_min_size := 0
    aggr_volume_max_size := 2500
    flexvol_volume_min_size := 0
    flexvol_volume_max_size := 2500
    hdd := false }

/-- A shadow vm: one 50-byte disk, handle 9. -/
def exVm9 : VM := ⟨"v9", 9, 128, 1, "poweredOff", [.disk 50]⟩

/-- A shadow vm: one 40-byte disk, handle 5. -/
def exVm5 : VM := ⟨"vol-5", 5, 128, 1, "poweredOff", [.disk 40]⟩

/-- A shadow vm: one 300-byte disk, handle 7. -/
def exVm7 : VM := ⟨"vol-7", 7, 128, 1, "poweredOff", [.disk 300]⟩

/-- Datastore at 90% usage holding `exVm9`. -/
def exDs1 : DS := DS.ofElement "ds-a" 100 1000 [9]

/-- Datastore at 50% usage. -/
def exDs2 : DS := DS.ofElement "ds-b" 500 1000 []

/-- Datastore at 10% usage. -/
def exDs3 : DS := DS.ofElement "ds-c" 900 1000 []

/-- Input for the datastore-level balancing run: one netapp whose single
aggregate (usage 50%) backs the datastore `vmfs_vc_src_ssd_0`. -/
def exNaDs : List NAm :=
  [⟨"na1", [⟨"aggr1", "na1", 50, 1000, [⟨"fv1", "vmfs_vc_src_ssd_0", "vmfs", 10⟩]⟩]⟩]

/-- The datastore fleet for the datastore-level balancing run: the
aggregate-backed datastore at 50%, a most-used datastore at 55% holding
`exVm5`, and a least-used datastore at 45%; all usages inside the corridor
40..60 of `exArgs`. -/
def exDsListDs : List DS :=
  [DS.ofElement "vmfs_vc_src_ssd_0" 50 100 [],
   DS.ofElement "vmfs_vc_a_ssd_1" 450 1000 [5],
   DS.ofElement "vmfs_vc_b_ssd_2" 550 1000 []]

/-- Input for the pool-level balancing run: a most-used aggregate (90%)
backing `vmfs_vc_src_ssd_1` and a least-used aggregate (10%) backing
`vmfs_vc_tgt_ssd_2`. -/
def exNaAggr : List NAm :=
  [⟨"na1",
    [⟨"aggr_hi", "na1", 90, 1000, [⟨"fv1", "vmfs_vc_src_ssd_1", "vmfs", 10⟩]⟩,
     ⟨"aggr_lo", "na1", 10, 1000, [⟨"fv2", "vmfs_vc_tgt_ssd_2", "vmfs", 10⟩]⟩]⟩]

/-- The datastore fleet for the pool-level balancing run: the source
datastore (90%, holding `exVm7`) backed by the most-used aggregate and a
target datastore (10%). -/
def exDsListAggr : List DS :=
  [DS.ofElement "vmfs_vc_src_ssd_1" 100 1000 [7],
   DS.ofElement "vmfs_vc_tgt_ssd_2" 900 1000 []]

/-- The pool-level configuration: `exArgs` with the source datastore's name
on the configured deny-list. -/
def exArgsAggr : Args := { exArgs with ds_denylist := ["vmfs_vc_src_ssd_1"] }

/-- The datastore-level configuration with a nonempty configured deny-list
(an entry matching no datastore). -/
def exArgsDeny : Args := { exArgs with ds_denylist := ["vmfs_vc_deny_ssd_9"] }

/-- Input for the quiet pool-level run: a single aggregate at 50% usage, so
the most-used aggregate equals the average, within the autopilot range. -/
def exNaQuiet : List NAm :=
  [⟨"na1", [⟨"aggr1", "na1", 50, 1000, [⟨"fv1", "vmfs_vc_x_ssd_3", "vmfs", 10⟩]⟩]⟩]

/-- The datastore fleet for the quiet pool-level run. -/
def exDsQuiet : List DS := [DS.ofElement "vmfs_vc_x_ssd_3" 50 100 []]

/-- Join/weighting instance: one aggregate at 80% usage with one LUN matching
the datastore `dsx` (usage 50%). -/
def exNaJoin : List NAm :=
  [⟨"na1", [⟨"aggr1", "na1", 80, 1000, [⟨"fv1", "dsx", "vmfs", 10⟩]⟩]⟩]

/-- The datastore matched by the join instance. -/
def exDsJoin : List DS := [DS.ofElement "dsx" 50 100 []]

/-- A matched datastore with zero used bytes (freespace equals capacity):
the weight division divides by zero. -/
def exDsZeroUsed : List DS := [DS.ofElement "dz" 100 100 []]

/-- A netapp whose single aggregate has one LUN named `dz`. -/
def exNaZeroUsed : List NAm :=
  [⟨"na1", [⟨"a1", "na1", 50, 1000, [⟨"f", "dz", "vmfs", 0⟩]⟩]⟩]

/-- A netapp whose single aggregate has one LUN matching no datastore: the
per-aggregate usage log line divides by an accumulated capacity of zero. -/
def exNaNoMatch : List NAm :=
  [⟨"na1", [⟨"a1", "na1", 50, 1000, [⟨"f", "nope", "vmfs", 0⟩]⟩]⟩]

/-! Helper lemmas about the embedding. -/

theorem mem_insertStable {le : α → α → Bool} {x a : α} {l : List α} :
    a ∈ insertStable le x l ↔ a = x ∨ a ∈ l := by
  induction l with
  | nil => simp [insertStable]
  | cons y ys ih =>
      by_cases h : le x y
      · simp [insertStable, h]
      · simp only [insertStable, h, Bool.false_eq_true, if_false, List.mem_cons, ih]
        tauto

theorem mem_sortStable {le : α → α → Bool} {a : α} {l : List α} :
    a ∈ sortStable le l ↔ a ∈ l := by
  induction l with
  | nil => simp [sortStable]
  | cons x xs ih =>
      show a ∈ insertStable le x (sortStable le xs) ↔ _
      rw [mem_insertStable]
      simp [ih]

/-- `DS.add_shadow_vm` does not change the datastore's name. -/
theorem name_add_shadow_vm (ds : DS) (vm : VM) : (ds.add_shadow_vm vm).name = ds.name := rfl

/-- `DS.remove_shadow_vm` does not change the datastore's name. -/
theorem name_remove_shadow_vm (ds : DS) (vm : VM) :
    (ds.remove_shadow_vm vm).name = ds.name := rfl

/-! Claim C1. -/

/-- C1, counterexample: at the concrete move of the 50-byte unit `exVm9` from
`exDs1` (100 bytes free) to `exDs2` (500 bytes free), both of nonzero
capacity, the claimed equations `A.free_after = A.free_before - u.size` and
`B.free_after = B.free_before + u.size` fail: removing the unit from the
source raises its free space to 150, and adding it to the target lowers the
target's free space to 450. -/
theorem C1_counterexample :
    ¬ ((move_shadow_vm_from_ds_to_ds exDs1 exDs2 exVm9).1.freespace =
          exDs1.freespace - exVm9.get_total_disksize ∧
       (move_shadow_vm_from_ds_to_ds exDs1 exDs2 exVm9).2.1.freespace =
          exDs2.freespace + exVm9.get_total_disksize) := by
  intro h
  have h1 : (move_shadow_vm_from_ds_to_ds exDs1 exDs2 exVm9).1.freespace = 150 := rfl
  have h2 : exDs1.freespace - exVm9.get_total_disksize = 50 := rfl
  rw [h1, h2] at h
  exact absurd h.1 (by decide)

/-- C1, amended: for every move of a unit `u` resident on datastore `A` to a
datastore `B`, both of nonzero capacity, `A.free_after = A.free_before +
u.size` (removing the unit frees space on the source) and `B.free_after =
B.free_before - u.size` (adding it consumes space on the target); the total
free space summed over all datastores is unchanged by the move. -/
theorem C1_move_conservation (ds1 ds2 : DS) (vm : VM) (rest : List DS)
    (h1 : ds1.capacity ≠ 0) (h2 : ds2.capacity ≠ 0)
    (hmem : vm.handle ∈ ds1.vm_handles) :
    (move_shadow_vm_from_ds_to_ds ds1 ds2 vm).1.freespace
        = ds1.freespace + vm.get_total_disksize ∧
    (move_shadow_vm_from_ds_to_ds ds1 ds2 vm).2.1.freespace
        = ds2.freespace - vm.get_total_disksize ∧
    get_overall_freespace ((move_shadow_vm_from_ds_to_ds ds1 ds2 vm).1 ::
        (move_shadow_vm_from_ds_to_ds ds1 ds2 vm).2.1 :: rest)
      = get_overall_freespace (ds1 :: ds2 :: rest) := by
  refine ⟨rfl, rfl, ?_⟩
  simp only [get_overall_freespace, move_shadow_vm_from_ds_to_ds,
    DS.remove_shadow_vm, DS.add_shadow_vm, List.map_cons, List.sum_cons]
  ring

/-- C1, witness: the amended statement evaluated at the concrete move of
`exVm9` from `exDs1` to `exDs2` with `exDs3` as the rest of the fleet. -/
theorem C1_witness :
    exDs1.capacity ≠ 0 ∧ exDs2.capacity ≠ 0 ∧ exVm9.handle ∈ exDs1.vm_handles ∧
    ((move_shadow_vm_from_ds_to_ds exDs1 exDs2 exVm9).1.freespace
        = exDs1.freespace + exVm9.get_total_disksize ∧
     (move_shadow_vm_from_ds_to_ds exDs1 exDs2 exVm9).2.1.freespace
        = exDs2.freespace - exVm9.get_total_disksize ∧
     get_overall_freespace ((move_shadow_vm_from_ds_to_ds exDs1 exDs2 exVm9).1 ::
        (move_shadow_vm_from_ds_to_ds exDs1 exDs2 exVm9).2.1 :: [exDs3])
      = get_overall_freespace (exDs1 :: exDs2 :: [exDs3])) :=
  ⟨by decide, by decide, by decide,
    C1_move_conservation exDs1 exDs2 exVm9 [exDs3] (by decide) (by decide) (by decide)⟩

/-! Claim C5. -/

/-- C5: for every datastore of nonzero capacity, the usage-recomputation
invariant `usage = (1 - freespace/capacity) * 100` holds at construction
(`DS.ofElement`) and is re-established by both Move Simulator mutations
(`add_shadow_vm`, `remove_shadow_vm`), hence holds on both sides after every
`move_shadow_vm_from_ds_to_ds`; `usage` is recomputed from `freespace` and
`capacity` on every mutation, never carried. -/
theorem C5_usage_recomputation (n : String) (freespace capacity : Int)
    (hs : List Nat) (ds ds2 : DS) (vm : VM)
    (hc : capacity ≠ 0) (h1 : ds.capacity ≠ 0) (h2 : ds2.capacity ≠ 0) :
    usage_inv (DS.ofElement n freespace capacity hs) ∧
    usage_inv (ds.add_shadow_vm vm) ∧
    usage_inv (ds.remove_shadow_vm vm) ∧
    usage_inv (move_shadow_vm_from_ds_to_ds ds ds2 vm).1 ∧
    usage_inv (move_shadow_vm_from_ds_to_ds ds ds2 vm).2.1 :=
  ⟨rfl, rfl, rfl, rfl, rfl⟩

/-- C5, witness: the invariant statement evaluated at `exDs1`, `exDs2`,
`exVm9`. -/
theorem C5_witness :
    (1000 : Int) ≠ 0 ∧ exDs1.capacity ≠ 0 ∧ exDs2.capacity ≠ 0 ∧
    (usage_inv (DS.ofElement "d" 3 1000 []) ∧
     usage_inv (exDs1.add_shadow_vm exVm9) ∧
     usage_inv (exDs1.remove_shadow_vm exVm9) ∧
     usage_inv (move_shadow_vm_from_ds_to_ds exDs1 exDs2 exVm9).1 ∧
     usage_inv (move_shadow_vm_from_ds_to_ds exDs1 exDs2 exVm9).2.1) :=
  ⟨by decide, by decide, by decide,
    C5_usage_recomputation "d" 3 1000 [] exDs1 exDs2 exVm9
      (by decide) (by decide) (by decide)⟩

/-! Claim C10. -/

/-- C10: the weight computation of `get_aggr_and_ds_stats` is partial.  At a
concrete input whose matched datastore `dz` has zero used bytes (freespace
equals capacity) the weight assignment divides by zero, and at a concrete
input whose sole pool has no LUN matching any datastore, the per-aggregate
usage log line divides by the zero accumulated matched capacity; both raise
ZeroDivisionError. -/
theorem C10_weight_division_partial :
    get_aggr_and_ds_stats exNaZeroUsed exDsZeroUsed
        = .error .zeroDivisionError ∧
    get_aggr_and_ds_stats exNaNoMatch [] = .error .zeroDivisionError :=
  ⟨by with_unfolding_all rfl, by with_unfolding_all rfl⟩

/-! Claim C8. -/

/-- The damped maximum is monotone in the rational free-space gap. -/
theorem vm_maxdisksize_mono {l1 m1 l2 m2 : DS} {fmax : Int}
    (h : ((l1.freespace - m1.freespace : Int) : ℚ)
        ≤ ((l2.freespace - m2.freespace : Int) : ℚ)) :
    vm_maxdisksize l1 m1 fmax ≤ vm_maxdisksize l2 m2 fmax := by
  unfold vm_maxdisksize
  refine min_le_min ?_ le_rfl
  gcongr

/-- C8: the damped maximum candidate size
`min((least.freespace - most.freespace) / (2*1024^3), flexvol_volume_max_size)`
of the datastore-level balancer is a non-decreasing function of the
free-space gap between least- and most-used datastore; consequently, for
datastores of one common capacity satisfying the usage invariant (so that the
usage gap determines the free-space gap), a narrower usage gap between most-
and least-used datastore yields a damped maximum that is no larger, with the
configured `flexvol_volume_max_size` unchanged. -/
theorem C8_damping_monotonicity (l1 m1 l2 m2 : DS) (fmax : Int) :
    ((l1.freespace - m1.freespace ≤ l2.freespace - m2.freespace) →
      vm_maxdisksize l1 m1 fmax ≤ vm_maxdisksize l2 m2 fmax) ∧
    (∀ c : Int, 0 < c → l1.capacity = c → m1.capacity = c →
      l2.capacity = c → m2.capacity = c →
      usage_inv l1 → usage_inv m1 → usage_inv l2 → usage_inv m2 →
      m1.usage - l1.usage ≤ m2.usage - l2.usage →
      vm_maxdisksize l1 m1 fmax ≤ vm_maxdisksize l2 m2 fmax) := by
  constructor
  · intro h
    exact vm_maxdisksize_mono (by exact_mod_cast h)
  · intro c hc hcl1 hcm1 hcl2 hcm2 il1 im1 il2 im2 hgap
    apply vm_maxdisksize_mono
    unfold usage_inv at il1 im1 il2 im2
    rw [il1, im1, il2, im2, hcl1, hcm1, hcl2, hcm2] at hgap
    have hc' : (0 : ℚ) < (c : ℚ) := by exact_mod_cast hc
    have hc0 : (c : ℚ) ≠ 0 := ne_of_gt hc'
    push_cast
    field_simp at hgap
    rw [div_le_div_iff₀ hc' hc'] at hgap
    have hfree := le_of_mul_le_mul_right hgap hc'
    linarith

/-- C8, witness: the monotonicity statement evaluated at the concrete
free-space gaps 400 (between `exDs2` and `exDs1`) and 800 (between `exDs3`
and `exDs1`). -/
theorem C8_witness :
    (exDs2.freespace - exDs1.freespace ≤ exDs3.freespace - exDs1.freespace) ∧
    vm_maxdisksize exDs2 exDs1 2500 ≤ vm_maxdisksize exDs3 exDs1 2500 :=
  ⟨by decide, (C8_damping_monotonicity exDs2 exDs1 exDs3 exDs1 2500).1 (by decide)⟩

/-! Claim C4: lemmas about the weight-map construction. -/

/-- Looking a name up after a dict assignment: the new binding answers for
its own key, other keys fall through. -/
theorem wfind_cons (m : String) (v : ℚ) (w : Wmap) (n : String) :
    wfind ((m, v) :: w) n = if m == n then some v else wfind w n := by
  unfold wfind
  cases hmn : m == n <;> simp [List.find?, hmn]

/-- Analysis of one successful `statsLun` step: an unmatched LUN leaves the
state unchanged (and raises nothing); a matched LUN prepends exactly its
weight entry to the map. -/
theorem statsLun_ok_cases {ds_info : List DS} {U : ℚ} {st st' : Int × Int × Wmap}
    {lun : NLun} (h : statsLun ds_info U st lun = .ok st') :
    (get_by_name ds_info lun.name = none ∧ st' = st) ∨
    (∃ d, get_by_name ds_info lun.name = some d ∧
      st'.2.2 = (lun.name, U / ((d.used : ℚ) / (d.capacity : ℚ) * 100)) :: st.2.2) := by
  unfold statsLun at h
  cases hg : get_by_name ds_info lun.name with
  | none =>
      simp only [hg] at h
      injection h with h
      exact .inl ⟨rfl, h.symm⟩
  | some d =>
      simp only [hg] at h
      by_cases h1 : d.capacity = 0
      · rw [if_pos h1] at h; exact (Except.noConfusion h)
      · rw [if_neg h1] at h
        by_cases h2 : (d.used : ℚ) / (d.capacity : ℚ) * 100 = 0
        · rw [if_pos h2] at h; exact (Except.noConfusion h)
        · rw [if_neg h2] at h
          injection h with h
          exact .inr ⟨d, rfl, by rw [← h]⟩

/-- Unfolding one step of the LUN loop. -/
theorem statsLuns_cons_ok {ds_info : List DS} {U : ℚ} {lun : NLun} {luns : List NLun}
    {st st' : Int × Int × Wmap}
    (h : statsLuns ds_info U (lun :: luns) st = .ok st') :
    ∃ st1, statsLun ds_info U st lun = .ok st1 ∧ statsLuns ds_info U luns st1 = .ok st' := by
  unfold statsLuns at h
  cases hl : statsLun ds_info U st lun with
  | error e => rw [hl] at h; exact (Except.noConfusion h)
  | ok st1 =>
      rw [hl] at h
      exact ⟨st1, rfl, h⟩

/-- Through the LUN loop of one aggregate, when the name `n` matches the
datastore `d`: if no LUN of the aggregate is named `n`, the weight entry for
`n` is untouched; otherwise it ends up at this aggregate's usage divided by
`d`'s used fraction. -/
theorem statsLuns_wfind_matched {ds_info : List DS} {d : DS} {n : String}
    (hd : get_by_name ds_info n = some d) {U : ℚ} (luns : List NLun) :
    ∀ st st' : Int × Int × Wmap, statsLuns ds_info U luns st = .ok st' →
      wfind st'.2.2 n =
        if (luns.filter (fun l => l.name == n)).isEmpty then wfind st.2.2 n
        else some (U / ((d.used : ℚ) / (d.capacity : ℚ) * 100)) := by
  induction luns with
  | nil =>
      intro st st' h
      injection h with h
      subst h
      simp
  | cons lun luns ih =>
      intro st st' h
      obtain ⟨st1, hl, hrest⟩ := statsLuns_cons_ok h
      have htail := ih st1 st' hrest
      rcases statsLun_ok_cases hl with ⟨hnone, hst⟩ | ⟨dl, hsome, hmap⟩
      · -- unmatched LUN: it cannot be named n (n matches d), state unchanged
        subst hst
        have hne : (lun.name == n) = false := by
          by_contra hb
          have heq : lun.name = n := by
            simpa using (Bool.of_not_eq_false hb)
          rw [heq, hd] at hnone
          exact (Option.noConfusion hnone)
        rw [htail]
        simp [List.filter_cons, hne]
      · by_cases hb : lun.name = n
        · -- a LUN named n writes the entry
          have hdl : dl = d := by
            rw [hb, hd] at hsome
            injection hsome with hsome
            exact hsome.symm
          subst hdl
          rw [htail]
          by_cases he : (luns.filter (fun l => l.name == n)).isEmpty
          · rw [if_pos he, hmap, wfind_cons]
            simp [List.filter_cons, hb, he]
          · rw [if_neg he]
            simp [List.filter_cons, hb, he]
        · -- a LUN of another name writes an unrelated entry
          have hne : (lun.name == n) = false := by simpa using hb
          rw [htail]
          by_cases he : (luns.filter (fun l => l.name == n)).isEmpty
          · rw [if_pos he, hmap, wfind_cons, hne]
            simp [List.filter_cons, hne, he]
          · rw [if_neg he]
            simp [List.filter_cons, hne, he]

/-- Through the LUN loop, a name matching no datastore never receives a
weight entry. -/
theorem statsLuns_wfind_unmatched {ds_info : List DS} {n : String}
    (hd : get_by_name ds_info n = none) {U : ℚ} (luns : List NLun) :
    ∀ st st' : Int × Int × Wmap, statsLuns ds_info U luns st = .ok st' →
      wfind st'.2.2 n = wfind st.2.2 n := by
  induction luns with
  | nil =>
      intro st st' h
      injection h with h
      subst h
      rfl
  | cons lun luns ih =>
      intro st st' h
      obtain ⟨st1, hl, hrest⟩ := statsLuns_cons_ok h
      have htail := ih st1 st' hrest
      rcases statsLun_ok_cases hl with ⟨_, hst⟩ | ⟨dl, hsome, hmap⟩
      · subst hst; exact htail
      · have hne : (lun.name == n) = false := by
          by_contra hb
          have heq : lun.name = n := by
            simpa using (Bool.of_not_eq_false hb)
          rw [heq, hd] at hsome
          exact (Option.noConfusion hsome)
        rw [htail, hmap, wfind_cons, hne]
        simp

/-- Decomposition of one successful `statsAggr` step. -/
theorem statsAggr_ok {ds_info : List DS} {w w' : Wmap} {aggr : NAggr}
    (h : statsAggr ds_info w aggr = .ok w') :
    ∃ st', statsLuns ds_info aggr.usage aggr.luns (0, 0, w) = .ok st' ∧ w' = st'.2.2 := by
  unfold statsAggr at h
  cases hs : statsLuns ds_info aggr.usage aggr.luns (0, 0, w) with
  | error e => rw [hs] at h; exact (Except.noConfusion h)
  | ok st' =>
      rw [hs] at h
      have h' : (if st'.1 = 0 then (Except.error .zeroDivisionError : Except PyErr Wmap)
          else Except.ok st'.2.2) = Except.ok w' := h
      by_cases hz : st'.1 = 0
      · rw [if_pos hz] at h'
        exact (Except.noConfusion h')
      · rw [if_neg hz] at h'
        injection h' with h'
        exact ⟨st', rfl, h'.symm⟩

/-- Unfolding one step of the aggregate loop. -/
theorem statsAggrList_cons_ok {ds_info : List DS} {aggr : NAggr} {aggrs : List NAggr}
    {w0 w' : Wmap} (h : statsAggrList ds_info (aggr :: aggrs) w0 = .ok w') :
    ∃ w1, statsAggr ds_info w0 aggr = .ok w1 ∧ statsAggrList ds_info aggrs w1 = .ok w' := by
  unfold statsAggrList at h
  cases hl : statsAggr ds_info w0 aggr with
  | error e => rw [hl] at h; exact (Except.noConfusion h)
  | ok w1 =>
      rw [hl] at h
      exact ⟨w1, rfl, h⟩

/-- An aggregate carrying no LUN named `n` contributes no usage entry. -/
theorem aggrUsagesForName_cons_nowrite {n : String} {aggr : NAggr} {aggrs : List NAggr}
    (he : (aggr.luns.filter (fun l => l.name == n)).isEmpty = true) :
    aggrUsagesForName n (aggr :: aggrs) = aggrUsagesForName n aggrs := by
  unfold aggrUsagesForName
  rw [List.filterMap_cons]
  split
  · rfl
  · next hsome =>
      rw [if_pos he] at hsome
      exact (Option.noConfusion hsome)

/-- An aggregate carrying a LUN named `n` contributes its usage. -/
theorem aggrUsagesForName_cons_write {n : String} {aggr : NAggr} {aggrs : List NAggr}
    (he : ¬ (aggr.luns.filter (fun l => l.name == n)).isEmpty = true) :
    aggrUsagesForName n (aggr :: aggrs) = aggr.usage :: aggrUsagesForName n aggrs := by
  unfold aggrUsagesForName
  rw [List.filterMap_cons]
  split
  · next hnone =>
      rw [if_neg he] at hnone
      exact (Option.noConfusion hnone)
  · next b hsome =>
      rw [if_neg he] at hsome
      injection hsome with hsome
      rw [hsome]

/-- If no traversed aggregate carries a LUN named `n`, the weight entry for
`n` survives the aggregate loop unchanged. -/
theorem statsAggrList_wfind_nowrites {ds_info : List DS} {d : DS} {n : String}
    (hd : get_by_name ds_info n = some d) (aggrs : List NAggr) :
    ∀ w0 w', statsAggrList ds_info aggrs w0 = .ok w' →
      aggrUsagesForName n aggrs = [] → wfind w' n = wfind w0 n := by
  induction aggrs with
  | nil =>
      intro w0 w' h _
      injection h with h
      subst h
      rfl
  | cons aggr aggrs ih =>
      intro w0 w' h hu
      obtain ⟨w1, ha, hrest⟩ := statsAggrList_cons_ok h
      obtain ⟨st', hl, hw1⟩ := statsAggr_ok ha
      by_cases he : (aggr.luns.filter (fun l => l.name == n)).isEmpty
      · have hu' : aggrUsagesForName n aggrs = [] := by
          rw [aggrUsagesForName_cons_nowrite he] at hu
          exact hu
        have h1 : wfind w1 n = wfind w0 n := by
          rw [hw1, statsLuns_wfind_matched hd aggr.luns _ _ hl, if_pos he]
        rw [ih w1 w' hrest hu', h1]
      · exfalso
        rw [aggrUsagesForName_cons_write he] at hu
        exact (List.noConfusion hu)


/-- A name matching no datastore never receives a weight entry through the
aggregate loop. -/
theorem statsAggrList_wfind_unmatched {ds_info : List DS} {n : String}
    (hd : get_by_name ds_info n = none) (aggrs : List NAggr) :
    ∀ w0 w', statsAggrList ds_info aggrs w0 = .ok w' → wfind w' n = wfind w0 n := by
  induction aggrs with
  | nil =>
      intro w0 w' h
      injection h with h
      subst h
      rfl
  | cons aggr aggrs ih =>
      intro w0 w' h
      obtain ⟨w1, ha, hrest⟩ := statsAggrList_cons_ok h
      obtain ⟨st', hl, hw1⟩ := statsAggr_ok ha
      have h1 : wfind w1 n = wfind w0 n := by
        rw [hw1]
        exact statsLuns_wfind_unmatched hd aggr.luns _ _ hl
      rw [ih w1 w' hrest, h1]

/-- When the name `n` matches the datastore `d` and exactly one traversed
aggregate (of usage `U`) carries LUNs named `n`, the weight map produced by
the aggregate loop binds `n` to `U` divided by `d`'s used fraction. -/
theorem statsAggrList_wfind_unique {ds_info : List DS} {d : DS} {n : String}
    (hd : get_by_name ds_info n = some d) (aggrs : List NAggr) :
    ∀ w0 w' U, statsAggrList ds_info aggrs w0 = .ok w' →
      aggrUsagesForName n aggrs = [U] →
      wfind w' n = some (U / ((d.used : ℚ) / (d.capacity : ℚ) * 100)) := by
  induction aggrs with
  | nil =>
      intro w0 w' U _ hu
      exact (List.noConfusion hu)
  | cons aggr aggrs ih =>
      intro w0 w' U h hu
      obtain ⟨w1, ha, hrest⟩ := statsAggrList_cons_ok h
      obtain ⟨st', hl, hw1⟩ := statsAggr_ok ha
      by_cases he : (aggr.luns.filter (fun l => l.name == n)).isEmpty
      · -- this aggregate writes nothing for n; the unique write is further on
        rw [aggrUsagesForName_cons_nowrite he] at hu
        exact ih w1 w' U hrest hu
      · -- this aggregate is the unique writer; nothing after it writes n
        rw [aggrUsagesForName_cons_write he] at hu
        injection hu with hu1 hu2
        have h1 : wfind w1 n = some (U / ((d.used : ℚ) / (d.capacity : ℚ) * 100)) := by
          rw [hw1, statsLuns_wfind_matched hd aggr.luns _ _ hl, if_neg he, hu1]
        rw [statsAggrList_wfind_nowrites hd aggrs w1 w' hrest hu2, h1]

/-- For a fresh datastore the used fraction seen by the weight computation is
exactly its usage percentage. -/
theorem fresh_weight_val {d : DS} (hf : DS.fresh d) :
    (d.used : ℚ) / (d.capacity : ℚ) * 100 = d.usage := by
  obtain ⟨hu, hi, hc⟩ := hf
  unfold usage_inv at hi
  rw [hi, hu]
  have hc0 : (d.capacity : ℚ) ≠ 0 := Int.cast_ne_zero.mpr hc
  push_cast
  field_simp

/-- C4: in `get_aggr_and_ds_stats`, (1) for a pool `P` of usage `U` that is
the unique holder of LUNs with a name `n` matching a fresh datastore `d`, any
successful run binds `weight[n] = U / d.usage` (pool usage over datastore
usage); (2) a name matching no datastore never receives a weight entry; and
(3) a LUN whose name matches no datastore is skipped: its step returns the
state unchanged and raises nothing. -/
theorem C4_join_weighting :
    (∀ (na_info : List NAm) (ds_info : List DS) (n : String) (d : DS) (U : ℚ) (w : Wmap),
      get_by_name ds_info n = some d → DS.fresh d →
      aggrUsagesForName n (allAggrs na_info) = [U] →
      get_aggr_and_ds_stats na_info ds_info = .ok w →
      wfind w n = some (U / d.usage)) ∧
    (∀ (na_info : List NAm) (ds_info : List DS) (n : String) (w : Wmap),
      get_by_name ds_info n = none →
      get_aggr_and_ds_stats na_info ds_info = .ok w →
      wfind w n = none) ∧
    (∀ (ds_info : List DS) (U : ℚ) (st : Int × Int × Wmap) (lun : NLun),
      get_by_name ds_info lun.name = none →
      statsLun ds_info U st lun = .ok st) := by
  refine ⟨?_, ?_, ?_⟩
  · intro na_info ds_info n d U w hd hf hu h
    rw [statsAggrList_wfind_unique hd (allAggrs na_info) [] w U h hu,
      fresh_weight_val hf]
  · intro na_info ds_info n w hd h
    rw [statsAggrList_wfind_unmatched hd (allAggrs na_info) [] w h]
    rfl
  · intro ds_info U st lun hd
    unfold statsLun
    rw [hd]

/-- C4, witness: the three parts evaluated on `exNaJoin`/`exDsJoin` (pool at
80%, matched datastore `dsx` at 50%, weight `80/50`; the name `nope` matches
nothing and its LUN step is the identity). -/
theorem C4_witness :
    (get_by_name exDsJoin "dsx" = some (DS.ofElement "dsx" 50 100 []) ∧
     DS.fresh (DS.ofElement "dsx" 50 100 []) ∧
     aggrUsagesForName "dsx" (allAggrs exNaJoin) = [80] ∧
     get_aggr_and_ds_stats exNaJoin exDsJoin
        = .ok [("dsx", 80 / ((50 : ℚ) / 100 * 100))] ∧
     wfind [("dsx", 80 / ((50 : ℚ) / 100 * 100))] "dsx"
        = some (80 / (DS.ofElement "dsx" 50 100 []).usage)) ∧
    (get_by_name exDsJoin "nope" = none ∧
     wfind [("dsx", 80 / ((50 : ℚ) / 100 * 100))] "nope" = none) ∧
    (get_by_name exDsJoin "nope" = none ∧
     statsLun exDsJoin 50 (0, 0, []) ⟨"f", "nope", "vmfs", 0⟩ = .ok (0, 0, [])) := by
  refine ⟨⟨?h1, ?h2, ?h3, ?h4, ?c1⟩, ⟨?h5, ?c2⟩, ⟨?h6, ?c3⟩⟩
  case h1 => with_unfolding_all rfl
  case h2 => exact ⟨rfl, rfl, by decide⟩
  case h3 => with_unfolding_all rfl
  case h4 => with_unfolding_all rfl
  case c1 =>
    exact C4_join_weighting.1 exNaJoin exDsJoin "dsx" (DS.ofElement "dsx" 50 100 []) 80
      [("dsx", 80 / ((50 : ℚ) / 100 * 100))] (by with_unfolding_all rfl)
      ⟨rfl, rfl, by decide⟩ (by with_unfolding_all rfl) (by with_unfolding_all rfl)
  case h5 => with_unfolding_all rfl
  case c2 =>
    exact C4_join_weighting.2.1 exNaJoin exDsJoin "nope"
      [("dsx", 80 / ((50 : ℚ) / 100 * 100))] (by with_unfolding_all rfl)
      (by with_unfolding_all rfl)
  case h6 => with_unfolding_all rfl
  case c3 =>
    exact C4_join_weighting.2.2 exDsJoin 50 (0, 0, []) ⟨"f", "nope", "vmfs", 0⟩
      (by with_unfolding_all rfl)

/-! Claim C7. -/

/-- The balancing loop of `vmfs_aggr_balancing` emits at most `budget` move
records (the loop is structurally recursive on the remaining move budget, so
it always terminates). -/
theorem aggrLoop_length_le (vm_info : List VM) (args : Args) (ds_weight : Wmap)
    (stf avgu : ℚ) :
    ∀ (budget : Nat) (src : DS) (targets : List (Nat × DS)) (moved : Int),
      (aggrLoop vm_info args ds_weight stf avgu budget src targets moved).1.length
        ≤ budget := by
  intro budget
  induction budget with
  | zero =>
      intro src targets moved
      simp [aggrLoop]
  | succ b ih =>
      intro src targets moved
      simp only [aggrLoop]
      split
      · simp
      · split
        · simp
        · split
          · simp
          · split
            · simp
            · simp only [List.length_cons]
              exact Nat.succ_le_succ (ih _ _ _)

/-- C7: every pool-level balancing pass terminates (the model is a total
function) and emits at most `max_move_vms + 1` move records: the loop breaks
as soon as the move count exceeds the configured cap, and possibly earlier
(enough size freed, source usage low enough, or no eligible unit left). -/
theorem C7_aggr_termination (na_info : List NAm) (ds_elements : List DS)
    (vm_info : List VM) (args : Args) :
    (vmfs_aggr_balancing na_info ds_elements vm_info args).moves.length
      ≤ (args.max_move_vms + 1).toNat := by
  simp only [vmfs_aggr_balancing]
  split
  · simp
  · split
    · simp
    · split
      · simp
      · split
        · simp
        · split
          · simp
          · split
            · simp
            · split
              · simp
              · exact aggrLoop_length_le vm_info args _ _ _ _ _ _ _

/-! Claim C6. -/

/-- C6: `vmfs_aggr_balancing` proceeds past the autopilot gate only when the
most-utilized pool's usage is at least the capacity-weighted average plus
`autopilot_range`; when it is below that bound the pass performs zero moves,
raises nothing, and returns before the source-datastore search and before the
deny-list derivation (the result is exactly the early-return record, with
`args.ds_denylist` untouched). -/
theorem C6_autopilot_gate (na_info : List NAm) (ds_elements : List DS)
    (vm_info : List VM) (args : Args) (w : Wmap) (maxA : NAggr) (avg : ℚ)
    (hstats : get_aggr_and_ds_stats na_info ds_elements = .ok w)
    (hmax : get_max_usage_aggr na_info = .ok (maxA, avg))
    (hlt : maxA.usage < avg + (args.autopilot_range : ℚ)) :
    vmfs_aggr_balancing na_info ds_elements vm_info args
      = ⟨[], args.ds_denylist, [], none⟩ := by
  simp only [vmfs_aggr_balancing, hstats, hmax]
  rw [if_pos hlt]

/-- C6, witness: the gate statement evaluated on the quiet fleet
(`exNaQuiet`: one pool at 50%, average 50, autopilot range 5). -/
theorem C6_witness :
    get_aggr_and_ds_stats exNaQuiet exDsQuiet = .ok [("vmfs_vc_x_ssd_3", 1)] ∧
    get_max_usage_aggr exNaQuiet = .ok (⟨"aggr1", "na1", 50, 1000,
        [⟨"fv1", "vmfs_vc_x_ssd_3", "vmfs", 10⟩]⟩, 50) ∧
    ((⟨"aggr1", "na1", 50, 1000, [⟨"fv1", "vmfs_vc_x_ssd_3", "vmfs", 10⟩]⟩ : NAggr).usage
        < 50 + ((exArgs.autopilot_range : Int) : ℚ)) ∧
    vmfs_aggr_balancing exNaQuiet exDsQuiet [] exArgs
      = ⟨[], exArgs.ds_denylist, [], none⟩ := by
  refine ⟨by with_unfolding_all rfl, by with_unfolding_all rfl, ?hlt, ?conc⟩
  case hlt => norm_num [exArgs]
  case conc =>
    exact C6_autopilot_gate exNaQuiet exDsQuiet [] exArgs [("vmfs_vc_x_ssd_3", 1)]
      ⟨"aggr1", "na1", 50, 1000, [⟨"fv1", "vmfs_vc_x_ssd_3", "vmfs", 10⟩]⟩ 50
      (by with_unfolding_all rfl) (by with_unfolding_all rfl) (by norm_num [exArgs])

/-! Claim C9. -/

/-- Either `vmfs_ds_balancing` returns before the deny-list extension (the
derived list in its result is empty), or the most-used-aggregate computation
succeeded and the result records exactly the `extend_denylist` step. -/
theorem vmfs_ds_balancing_denylist_cases (na_info : List NAm) (ds_elements : List DS)
    (vm_info : List VM) (args : Args) :
    (vmfs_ds_balancing na_info ds_elements vm_info args).extended_ds_denylist = [] ∨
    ∃ maxA avg, get_max_usage_aggr na_info = .ok (maxA, avg) ∧
      (vmfs_ds_balancing na_info ds_elements vm_info args).extended_ds_denylist
        = (extend_denylist args.ds_denylist (maxA.luns.map (fun lun => lun.name))).1 ∧
      (vmfs_ds_balancing na_info ds_elements vm_info args).ds_denylist_after
        = (extend_denylist args.ds_denylist (maxA.luns.map (fun lun => lun.name))).2 := by
  cases hstats : get_aggr_and_ds_stats na_info ds_elements with
  | error e => left; simp only [vmfs_ds_balancing, hstats]
  | ok w =>
      cases hmax : get_max_usage_aggr na_info with
      | error e => left; simp only [vmfs_ds_balancing, hstats, hmax]
      | ok p =>
          obtain ⟨maxA, avg⟩ := p
          simp only [vmfs_ds_balancing, hstats, hmax]
          split
          · left; rfl
          · split
            · left; rfl
            · right; exact ⟨maxA, avg, rfl, rfl, rfl⟩

/-- Either `vmfs_aggr_balancing` returns before the deny-list extension, or
the most-used-aggregate computation succeeded and the result records exactly
the `extend_denylist` step. -/
theorem vmfs_aggr_balancing_denylist_cases (na_info : List NAm) (ds_elements : List DS)
    (vm_info : List VM) (args : Args) :
    (vmfs_aggr_balancing na_info ds_elements vm_info args).extended_ds_denylist = [] ∨
    ∃ maxA avg, get_max_usage_aggr na_info = .ok (maxA, avg) ∧
      (vmfs_aggr_balancing na_info ds_elements vm_info args).extended_ds_denylist
        = (extend_denylist args.ds_denylist (maxA.luns.map (fun lun => lun.name))).1 ∧
      (vmfs_aggr_balancing na_info ds_elements vm_info args).ds_denylist_after
        = (extend_denylist args.ds_denylist (maxA.luns.map (fun lun => lun.name))).2 := by
  cases hstats : get_aggr_and_ds_stats na_info ds_elements with
  | error e => left; simp only [vmfs_aggr_balancing, hstats]
  | ok w =>
      cases hmax : get_max_usage_aggr na_info with
      | error e => left; simp only [vmfs_aggr_balancing, hstats, hmax]
      | ok p =>
          obtain ⟨maxA, avg⟩ := p
          simp only [vmfs_aggr_balancing, hstats, hmax]
          split
          · left; rfl
          · split
            · left; rfl
            · split
              · left; rfl
              · split
                · left; rfl
                · split
                  · left; rfl
                  · right; exact ⟨maxA, avg, rfl, rfl, rfl⟩

/-- C9: when a nonempty datastore deny-list is configured, both balancing
passes alias it: whenever a pass reaches the deny-list derivation, the
caller's `args.ds_denylist` afterwards equals the configured list with the
most-utilized pool's LUN names appended in place - so it has strictly grown
whenever that pool has any LUN, instead of staying unchanged. -/
theorem C9_denylist_aliasing :
    (∀ (na_info : List NAm) (ds_elements : List DS) (vm_info : List VM) (args : Args)
        (maxA : NAggr) (avg : ℚ),
      get_max_usage_aggr na_info = .ok (maxA, avg) → args.ds_denylist ≠ [] →
      (vmfs_ds_balancing na_info ds_elements vm_info args).extended_ds_denylist ≠ [] →
      (vmfs_ds_balancing na_info ds_elements vm_info args).ds_denylist_after
          = args.ds_denylist ++ maxA.luns.map (fun lun => lun.name) ∧
      (maxA.luns ≠ [] →
        (vmfs_ds_balancing na_info ds_elements vm_info args).ds_denylist_after
          ≠ args.ds_denylist)) ∧
    (∀ (na_info : List NAm) (ds_elements : List DS) (vm_info : List VM) (args : Args)
        (maxA : NAggr) (avg : ℚ),
      get_max_usage_aggr na_info = .ok (maxA, avg) → args.ds_denylist ≠ [] →
      (vmfs_aggr_balancing na_info ds_elements vm_info args).extended_ds_denylist ≠ [] →
      (vmfs_aggr_balancing na_info ds_elements vm_info args).ds_denylist_after
          = args.ds_denylist ++ maxA.luns.map (fun lun => lun.name) ∧
      (maxA.luns ≠ [] →
        (vmfs_aggr_balancing na_info ds_elements vm_info args).ds_denylist_after
          ≠ args.ds_denylist)) := by
  have grow : ∀ (d names : List String), names ≠ [] → d ++ names ≠ d := by
    intro d names hn heq
    have hlen := congrArg List.length heq
    rw [List.length_append] at hlen
    have : names.length = 0 := by omega
    exact hn (List.length_eq_zero.mp this)
  constructor
  · intro na_info ds_elements vm_info args maxA avg hmax hne hreach
    rcases vmfs_ds_balancing_denylist_cases na_info ds_elements vm_info args with
      h0 | ⟨maxA', avg', hmax', hext, haft⟩
    · exact absurd h0 hreach
    · rw [hmax] at hmax'
      injection hmax' with hp
      have hA : maxA' = maxA := (congrArg Prod.fst hp).symm
      subst hA
      have hie : args.ds_denylist.isEmpty = false := by
        cases hdl : args.ds_denylist with
        | nil => exact absurd hdl hne
        | cons a l => rfl
      rw [haft]
      unfold extend_denylist
      rw [hie]
      refine ⟨rfl, fun hluns => ?_⟩
      simp only [Bool.false_eq_true, if_false]
      refine grow _ _ ?_
      simpa using hluns
  · intro na_info ds_elements vm_info args maxA avg hmax hne hreach
    rcases vmfs_aggr_balancing_denylist_cases na_info ds_elements vm_info args with
      h0 | ⟨maxA', avg', hmax', hext, haft⟩
    · exact absurd h0 hreach
    · rw [hmax] at hmax'
      injection hmax' with hp
      have hA : maxA' = maxA := (congrArg Prod.fst hp).symm
      subst hA
      have hie : args.ds_denylist.isEmpty = false := by
        cases hdl : args.ds_denylist with
        | nil => exact absurd hdl hne
        | cons a l => rfl
      rw [haft]
      unfold extend_denylist
      rw [hie]
      refine ⟨rfl, fun hluns => ?_⟩
      simp only [Bool.false_eq_true, if_false]
      refine grow _ _ ?_
      simpa using hluns

/-- C9, witness: the aliasing statement evaluated on concrete runs of both
passes with nonempty configured deny-lists (`exArgsDeny`, `exArgsAggr`): in
both, `args.ds_denylist` afterwards is the configured list with the most-used
pool's LUN names appended, and differs from the configured list. -/
theorem C9_witness :
    (get_max_usage_aggr exNaDs = .ok (⟨"aggr1", "na1", 50, 1000,
        [⟨"fv1", "vmfs_vc_src_ssd_0", "vmfs", 10⟩]⟩, 50) ∧
     exArgsDeny.ds_denylist ≠ [] ∧
     (vmfs_ds_balancing exNaDs exDsListDs [exVm5] exArgsDeny).extended_ds_denylist ≠ [] ∧
     (vmfs_ds_balancing exNaDs exDsListDs [exVm5] exArgsDeny).ds_denylist_after
        = exArgsDeny.ds_denylist ++
          ((⟨"aggr1", "na1", 50, 1000, [⟨"fv1", "vmfs_vc_src_ssd_0", "vmfs", 10⟩]⟩ :
            NAggr).luns.map (fun lun => lun.name)) ∧
     (vmfs_ds_balancing exNaDs exDsListDs [exVm5] exArgsDeny).ds_denylist_after
        ≠ exArgsDeny.ds_denylist) ∧
    (get_max_usage_aggr exNaAggr = .ok (⟨"aggr_hi", "na1", 90, 1000,
        [⟨"fv1", "vmfs_vc_src_ssd_1", "vmfs", 10⟩]⟩, 50) ∧
     exArgsAggr.ds_denylist ≠ [] ∧
     (vmfs_aggr_balancing exNaAggr exDsListAggr [exVm7] exArgsAggr).extended_ds_denylist ≠ [] ∧
     (vmfs_aggr_balancing exNaAggr exDsListAggr [exVm7] exArgsAggr).ds_denylist_after
        = exArgsAggr.ds_denylist ++
          ((⟨"aggr_hi", "na1", 90, 1000, [⟨"fv1", "vmfs_vc_src_ssd_1", "vmfs", 10⟩]⟩ :
            NAggr).luns.map (fun lun => lun.name)) ∧
     (vmfs_aggr_balancing exNaAggr exDsListAggr [exVm7] exArgsAggr).ds_denylist_after
        ≠ exArgsAggr.ds_denylist) := by
  have hmax1 : get_max_usage_aggr exNaDs = .ok (⟨"aggr1", "na1", 50, 1000,
      [⟨"fv1", "vmfs_vc_src_ssd_0", "vmfs", 10⟩]⟩, 50) := by with_unfolding_all rfl
  have hmax2 : get_max_usage_aggr exNaAggr = .ok (⟨"aggr_hi", "na1", 90, 1000,
      [⟨"fv1", "vmfs_vc_src_ssd_1", "vmfs", 10⟩]⟩, 50) := by with_unfolding_all rfl
  have hext1 : (vmfs_ds_balancing exNaDs exDsListDs [exVm5] exArgsDeny).extended_ds_denylist
      = ["vmfs_vc_deny_ssd_9", "vmfs_vc_src_ssd_0"] := by with_unfolding_all rfl
  have hext2 : (vmfs_aggr_balancing exNaAggr exDsListAggr [exVm7] exArgsAggr).extended_ds_denylist
      = ["vmfs_vc_src_ssd_1", "vmfs_vc_src_ssd_1"] := by with_unfolding_all rfl
  have hne1 : (vmfs_ds_balancing exNaDs exDsListDs [exVm5] exArgsDeny).extended_ds_denylist
      ≠ [] := by rw [hext1]; exact fun h => List.noConfusion h
  have hne2 : (vmfs_aggr_balancing exNaAggr exDsListAggr [exVm7] exArgsAggr).extended_ds_denylist
      ≠ [] := by rw [hext2]; exact fun h => List.noConfusion h
  have hd1 : exArgsDeny.ds_denylist ≠ [] := by decide
  have hd2 : exArgsAggr.ds_denylist ≠ [] := by decide
  have part1 := C9_denylist_aliasing.1 exNaDs exDsListDs [exVm5] exArgsDeny
    ⟨"aggr1", "na1", 50, 1000, [⟨"fv1", "vmfs_vc_src_ssd_0", "vmfs", 10⟩]⟩ 50
    hmax1 hd1 hne1
  have part2 := C9_denylist_aliasing.2 exNaAggr exDsListAggr [exVm7] exArgsAggr
    ⟨"aggr_hi", "na1", 90, 1000, [⟨"fv1", "vmfs_vc_src_ssd_1", "vmfs", 10⟩]⟩ 50
    hmax2 hd2 hne2
  exact ⟨⟨hmax1, hd1, hne1, part1.1, part1.2 (by decide)⟩,
         ⟨hmax2, hd2, hne2, part2.1, part2.2 (by decide)⟩⟩

/-! Claim C3. -/

/-- C3, counterexample: in the concrete pool-level run on `exNaAggr` with the
configured deny-list `["vmfs_vc_src_ssd_1"]`, the single proposed move has
source `vmfs_vc_src_ssd_1`, which is on the configured deny-list and on the
derived (extended) deny-list: the balancer does select a move whose source
datastore is deny-listed (the deny-list constrains only targets, and the
derived list always carries the most-used pool's own LUNs, the source
included). -/
theorem C3_counterexample :
    (vmfs_aggr_balancing exNaAggr exDsListAggr [exVm7] exArgsAggr).moves.map
        (fun m => m.source) = ["vmfs_vc_src_ssd_1"] ∧
    "vmfs_vc_src_ssd_1" ∈ exArgsAggr.ds_denylist ∧
    "vmfs_vc_src_ssd_1" ∈
      (vmfs_aggr_balancing exNaAggr exDsListAggr [exVm7] exArgsAggr).extended_ds_denylist := by
  refine ⟨by with_unfolding_all rfl, by decide, ?_⟩
  rw [show (vmfs_aggr_balancing exNaAggr exDsListAggr [exVm7] exArgsAggr).extended_ds_denylist
      = ["vmfs_vc_src_ssd_1", "vmfs_vc_src_ssd_1"] from by with_unfolding_all rfl]
  decide

/-- Membership in the deny-filtered datastore list implies, for a nonempty
deny-list, that the datastore's name is off the deny-list. -/
theorem vmfs_ds_filter_not_denied {elements : List DS} {deny : List String} {ds : DS}
    (hne : deny ≠ []) (h : ds ∈ vmfs_ds_filter elements deny) : ds.name ∉ deny := by
  unfold vmfs_ds_filter at h
  have hp := List.of_mem_filter h
  have hie : deny.isEmpty = false := by
    cases deny with
    | nil => exact absurd rfl hne
    | cons a l => rfl
  rw [hie] at hp
  simp at hp
  exact hp.2

/-- Through the balancing loop of `vmfs_aggr_balancing`: if no datastore of
the target pool is deny-listed, no emitted move has a deny-listed target. -/
theorem aggrLoop_target_not_denied (vm_info : List VM) (args : Args) (ds_weight : Wmap)
    (stf avgu : ℚ) (deny : List String) :
    ∀ (budget : Nat) (src : DS) (targets : List (Nat × DS)) (moved : Int),
      (∀ p ∈ targets, p.2.name ∉ deny) →
      ∀ m ∈ (aggrLoop vm_info args ds_weight stf avgu budget src targets moved).1,
        m.target ∉ deny := by
  intro budget
  induction budget with
  | zero =>
      intro src targets moved hinv m hm
      simp [aggrLoop] at hm
  | succ b ih =>
      intro src targets moved hinv m hm
      simp only [aggrLoop] at hm
      split at hm
      · simp at hm
      · split at hm
        · simp at hm
        · split at hm
          · simp at hm
          · next tid least hL =>
            split at hm
            · simp at hm
            · next vm hH =>
              have hmemL : (tid, least) ∈ sortStable (tagWeightedDesc ds_weight) targets :=
                List.mem_of_mem_getLast? hL
              have hmemT : (tid, least) ∈ targets := mem_sortStable.mp hmemL
              rcases List.mem_cons.mp hm with rfl | hm'
              · exact hinv _ hmemT
              · refine ih _ _ _ ?_ m hm'
                intro p hp
                have hp1 := mem_sortStable.mp hp
                obtain ⟨q, hq, hpq⟩ := List.mem_map.mp hp1
                have hqt : q ∈ targets := mem_sortStable.mp hq
                by_cases hqi : q.1 = tid
                · rw [if_pos hqi] at hpq
                  have hname : p.2.name = least.name := by rw [← hpq]; rfl
                  rw [hname]
                  exact hinv _ hmemT
                · rw [if_neg hqi] at hpq
                  rw [← hpq]
                  exact hinv q hqt

/-- Either the pool-level pass emits no moves, or it reaches the balancing
loop with a nonempty derived deny-list and a target pool entirely off that
deny-list. -/
theorem vmfs_aggr_balancing_moves_cases (na_info : List NAm) (ds_elements : List DS)
    (vm_info : List VM) (args : Args) :
    (vmfs_aggr_balancing na_info ds_elements vm_info args).moves = [] ∨
    ∃ (ds_weight : Wmap) (stf avgu : ℚ) (src : DS) (targets : List (Nat × DS))
        (deny : List String),
      deny ≠ [] ∧
      (vmfs_aggr_balancing na_info ds_elements vm_info args).extended_ds_denylist = deny ∧
      (∀ p ∈ targets, p.2.name ∉ deny) ∧
      (vmfs_aggr_balancing na_info ds_elements vm_info args).moves
        = (aggrLoop vm_info args ds_weight stf avgu
            (args.max_move_vms + 1).toNat src targets 0).1 := by
  cases hstats : get_aggr_and_ds_stats na_info ds_elements with
  | error e => left; simp only [vmfs_aggr_balancing, hstats]
  | ok w =>
      cases hmax : get_max_usage_aggr na_info with
      | error e => left; simp only [vmfs_aggr_balancing, hstats, hmax]
      | ok p =>
          obtain ⟨maxA, avg⟩ := p
          simp only [vmfs_aggr_balancing, hstats, hmax]
          split
          · left; rfl
          · split
            · left; rfl
            · split
              · left; rfl
              · next src hsrc =>
                split
                · left; rfl
                · split
                  · left; rfl
                  · -- the loop is reached
                    right
                    have hluns : maxA.luns ≠ [] := by
                      intro hnil
                      rw [hnil] at hsrc
                      simp [sortStable] at hsrc
                    have hnames : maxA.luns.map (fun lun => lun.name) ≠ [] := by
                      simpa using hluns
                    have hdeny : (extend_denylist args.ds_denylist
                        (maxA.luns.map (fun lun => lun.name))).1 ≠ [] := by
                      unfold extend_denylist
                      split
                      · exact hnames
                      · intro hnil
                        rw [List.append_eq_nil] at hnil
                        exact hnames hnil.2
                    refine ⟨w, _, _, src, _, _, hdeny, rfl, ?_, rfl⟩
                    intro p hp
                    have hmem := List.snd_mem_of_mem_enum hp
                    exact vmfs_ds_filter_not_denied hdeny hmem

/-- C3, amended: the pool-level balancer never selects a move whose TARGET
datastore is on the configured/derived deny-list (the derived deny-list
filters the target pool; the fixed source, being backed by the most-used
pool, is itself always on the derived deny-list). -/
theorem C3_amended_no_denied_target (na_info : List NAm) (ds_elements : List DS)
    (vm_info : List VM) (args : Args) :
    ((vmfs_aggr_balancing na_info ds_elements vm_info args).moves).all (fun m =>
      !((vmfs_aggr_balancing na_info ds_elements vm_info args).extended_ds_denylist).contains
        m.target) = true := by
  rw [List.all_eq_true]
  intro m hm
  suffices h : m.target ∉
      (vmfs_aggr_balancing na_info ds_elements vm_info args).extended_ds_denylist by
    simpa using h
  rcases vmfs_aggr_balancing_moves_cases na_info ds_elements vm_info args with
    h0 | ⟨ds_weight, stf, avgu, src, targets, deny, hdeny, hext, hinv, hmoves⟩
  · rw [h0] at hm
    exact absurd hm (List.not_mem_nil m)
  · rw [hmoves] at hm
    rw [hext]
    exact aggrLoop_target_not_denied vm_info args ds_weight stf avgu deny
      _ src targets 0 hinv m hm

/-! Claim C2. -/

/-- C2, counterexample: in the concrete run on `exNaDs`/`exDsListDs` with the
fixed corridor 40..60 of `exArgs`, every datastore of the fleet and every
eligible datastore lies inside the corridor, yet the pass performs one move
(and raises nothing): the loop does not exit on the corridor - its
`sanity_checks` call site is commented out in the source. -/
theorem C2_counterexample :
    ((vmfs_ds_balancing exNaDs exDsListDs [exVm5] exArgs).eligible_ds.all (fun ds =>
        decide ((vmfs_ds_balancing exNaDs exDsListDs [exVm5] exArgs).min_usage ≤ ds.usage ∧
          ds.usage ≤ (vmfs_ds_balancing exNaDs exDsListDs [exVm5] exArgs).max_usage))
      = true) ∧
    (exDsListDs.all (fun ds => decide ((40 : ℚ) ≤ ds.usage ∧ ds.usage ≤ 60)) = true) ∧
    (vmfs_ds_balancing exNaDs exDsListDs [exVm5] exArgs).min_usage = 40 ∧
    (vmfs_ds_balancing exNaDs exDsListDs [exVm5] exArgs).max_usage = 60 ∧
    (vmfs_ds_balancing exNaDs exDsListDs [exVm5] exArgs).moves.length = 1 ∧
    (vmfs_ds_balancing exNaDs exDsListDs [exVm5] exArgs).err = none := by
  refine ⟨?_, ?_, ?_, ?_, ?_, ?_⟩ <;> with_unfolding_all rfl

/-- C2, amended: the datastore-level balancer computes the corridor
`[min_usage, max_usage]` (from fixed configuration or, in autopilot mode, as
`avg ± autopilot_range`) but never consults it: the moves performed, the
eligible-datastore set, the deny-list effect and the error outcome are all
independent of the configured `min_usage`/`max_usage`, and the loop exits
only via the move cap, a missing candidate unit, or an error - even when
every eligible datastore already lies inside the corridor, eligible moves are
still performed. -/
theorem C2_corridor_not_consulted (na_info : List NAm) (ds_elements : List DS)
    (vm_info : List VM) (args : Args) (m1 m2 : Int) :
    (vmfs_ds_balancing na_info ds_elements vm_info
        { args with min_usage := m1, max_usage := m2 }).moves
      = (vmfs_ds_balancing na_info ds_elements vm_info args).moves ∧
    (vmfs_ds_balancing na_info ds_elements vm_info
        { args with min_usage := m1, max_usage := m2 }).eligible_ds
      = (vmfs_ds_balancing na_info ds_elements vm_info args).eligible_ds ∧
    (vmfs_ds_balancing na_info ds_elements vm_info
        { args with min_usage := m1, max_usage := m2 }).ds_denylist_after
      = (vmfs_ds_balancing na_info ds_elements vm_info args).ds_denylist_after ∧
    (vmfs_ds_balancing na_info ds_elements vm_info
        { args with min_usage := m1, max_usage := m2 }).err
      = (vmfs_ds_balancing na_info ds_elements vm_info args).err := by
  refine ⟨?_, ?_, ?_, ?_⟩ <;>
  · simp only [vmfs_ds_balancing]
    cases hstats : get_aggr_and_ds_stats na_info ds_elements with
    | error e => rfl
    | ok w =>
        cases hmax : get_max_usage_aggr na_info with
        | error e => rfl
        | ok p =>
            obtain ⟨maxA, avg⟩ := p
            repeat' split
            all_goals rfl
